import Mathlib

/-!
Verification of the enhanced RAG pipeline in
`agri_bot_searcher/src/enhanced_rag_system.py`.

The Python source is shallowly embedded: every pure helper becomes a Lean
function over `String` / `List`, the external collaborators (Ollama text
completion, FAISS search, web search) become explicit oracle parameters, and
the thread pool's non-deterministic completion order becomes an explicit
permutation parameter.  Strings are manipulated through their character
lists, matching Python's code-point semantics for `len`, slicing, `in`,
`strip`, `split` and `startswith`.
-/

namespace AgriRag

/-! ## Python-style string primitives -/

/-- Python `len(s)` (number of code points). -/
def pyLen (s : String) : Nat := s.data.length

/-- Python `s[:n]` for `n ≥ 0`. -/
def pyTake (s : String) (n : Nat) : String := ⟨s.data.take n⟩

/-- Python `s.lower()` (ASCII case folding, as used by the source). -/
def pyLower (s : String) : String := ⟨s.data.map Char.toLower⟩

/-- Whether `needle` occurs as a contiguous run inside `hay` (list form). -/
def listInfixB : List Char → List Char → Bool
  | needle, [] => needle.isEmpty
  | needle, c :: rest => needle.isPrefixOf (c :: rest) || listInfixB needle rest

/-- Python `needle in hay` for strings. -/
def pyContains (needle hay : String) : Bool := listInfixB needle.data hay.data

/-- Python `s.startswith(pre)`. -/
def pyStartsWith (s pre : String) : Bool := pre.data.isPrefixOf s.data

/-- Drop from both ends of `l` while the predicate holds. -/
def stripBoth (p : Char → Bool) (l : List Char) : List Char :=
  ((l.dropWhile p).reverse.dropWhile p).reverse

/-- Python `s.strip()` (whitespace from both ends). -/
def pyStrip (s : String) : String := ⟨stripBoth Char.isWhitespace s.data⟩

/-- Python `s.strip(c)` for a single character `c`. -/
def pyStripChar (c : Char) (s : String) : String :=
  ⟨stripBoth (fun x => x == c) s.data⟩

/-- Python `s.lstrip(cs)` for a set of characters. -/
def pyLStripSet (cs : List Char) (s : String) : String :=
  ⟨s.data.dropWhile (fun x => cs.contains x)⟩

/-- Helper for `pySplitLines`: accumulates the current line reversed. -/
def splitLinesAux : List Char → List Char → List String
  | [], acc => [⟨acc.reverse⟩]
  | c :: cs, acc =>
      if c = '\n' then ⟨acc.reverse⟩ :: splitLinesAux cs []
      else splitLinesAux cs (c :: acc)

/-- Python `s.split(chr(10))`. -/
def pySplitLines (s : String) : List String := splitLinesAux s.data []

/-- Python `s.split(sep, 1)[-1]` for `sep` a dot, assuming a dot occurs. -/
def afterFirstDot (s : String) : String :=
  ⟨(s.data.dropWhile (fun c => !(c == '.'))).drop 1⟩

/-- Helper for `splitCommaSpace`. -/
def splitCommaSpaceAux : List Char → List Char → List String
  | [], acc => [⟨acc.reverse⟩]
  | ',' :: ' ' :: cs, acc => ⟨acc.reverse⟩ :: splitCommaSpaceAux cs []
  | c :: cs, acc => splitCommaSpaceAux cs (c :: acc)

/-- Python `s.split(comma-space)`, the keyword-list separator of the source. -/
def splitCommaSpace (s : String) : List String := splitCommaSpaceAux s.data []

/-! ## Specialization registry (`MultiAgentRetriever`, lines 902-988)

The four specialized agents and their focus/expertise keyword strings are
copied verbatim from `MultiAgentRetriever.__init__`. -/

/-- One registered specialization: its registry key, focus keywords and
expertise keywords, comma-separated exactly as in the source dict. -/
structure Agent where
  name : String
  focus : String
  expertise : String
deriving DecidableEq

def cropSpecialist : Agent :=
  ⟨"crop_specialist", "crops, varieties, cultivation, planting",
    "plant breeding, seed selection, crop rotation"⟩

def soilExpert : Agent :=
  ⟨"soil_expert", "soil health, nutrients, fertilizers, amendments",
    "soil chemistry, pH, organic matter, erosion"⟩

def pestManager : Agent :=
  ⟨"pest_manager", "pests, diseases, IPM, biological control",
    "insect control, fungal diseases, resistance"⟩

def sustainabilityAdvisor : Agent :=
  ⟨"sustainability_advisor", "sustainable practices, organic farming, environment",
    "conservation, renewable energy, water management"⟩

/-- The registry, in Python dict declaration order. -/
def agents : List Agent :=
  [cropSpecialist, soilExpert, pestManager, sustainabilityAdvisor]

/-- Number of keywords of `keywords` occurring as substrings of `queryLower`. -/
def countMatches (queryLower : String) (keywords : List String) : Nat :=
  (keywords.filter (fun k => pyContains k queryLower)).length

/-- `MultiAgentRetriever._select_best_agent` scoring: 2 points per focus
keyword found in the lowercased query, 1 point per expertise keyword. -/
def agentScore (queryLower : String) (a : Agent) : Nat :=
  2 * countMatches queryLower (splitCommaSpace (pyLower a.focus)) +
    countMatches queryLower (splitCommaSpace (pyLower a.expertise))

/-- Python `max(scores.items(), key=...)` over insertion order: keeps the
current best unless a later agent scores strictly higher. -/
def pickBest (ql : String) : Agent → List Agent → Agent
  | best, [] => best
  | best, a :: rest =>
      if agentScore ql best < agentScore ql a then pickBest ql a rest
      else pickBest ql best rest

/-- `MultiAgentRetriever._select_best_agent`: arg-max over the registry with
first-declared tie-break, falling back to `crop_specialist` at score 0. -/
def selectBestAgent (query : String) : Agent :=
  let ql := pyLower query
  let best := pickBest ql cropSpecialist [soilExpert, pestManager, sustainabilityAdvisor]
  if 0 < agentScore ql best then best else cropSpecialist

/-- `MultiAgentRetriever._enhance_query_with_agent`. -/
def enhanceQueryWithAgent (query : String) (a : Agent) : String :=
  query ++ " " ++ a.focus ++ " " ++ a.expertise

/-! ## Collaborator call outcomes

Every call to an external collaborator (Ollama HTTP, FAISS, DuckDuckGo) either
returns a payload with a status, or raises; `LLMOutcome` and `Except` model
the two shapes used by the source's `try`/`except` blocks. -/

/-- Outcome of one `requests.post` to the text-completion collaborator:
either an HTTP status plus the `response` field of the JSON body, or a
raised exception with its message. -/
inductive LLMOutcome where
  | success (status : Nat) (body : String)
  | exn (msg : String)
deriving DecidableEq

/-! ## QueryRefiner (lines 84-140) -/

/-- The fixed instruction text prepended to the user query by
`QueryRefiner.refine_query`. -/
def refinePromptPre : String :=
  "You are an agricultural AI assistant. Transform the user's query into a more specific and searchable agricultural query while preserving their intent.\n\nRules:\n1. Understand the context and agricultural issue being described\n2. Make reasonable assumptions about common agricultural scenarios\n3. Transform it into a clear, searchable query\n4. Keep the original intent and urgency\n5. Add relevant agricultural keywords\n6. Return ONLY the refined query, no explanations\n\nExamples:\n- \"My crops are dying\" → \"crop disease symptoms identification and treatment for dying plants\"\n- \"Rain damaged my field\" → \"monsoon crop damage assessment and government compensation schemes in India\"\n- \"Need money for farming\" → \"agricultural loans subsidies and financial assistance programs for farmers\"\n\nUser query: "

/-- The refinement prompt for a given user query. -/
def refinePrompt (query : String) : String :=
  refinePromptPre ++ query ++ "\n\nRefined query:"

/-- `QueryRefiner.refine_query`: returns the stripped collaborator response on
HTTP 200, and the original query unchanged on any other status or exception. -/
def refineQuery (resp : LLMOutcome) (query : String) : String :=
  match resp with
  | .success status body => if status = 200 then pyStrip body else query
  | .exn _ => query

/-! ## SubQueryGenerator (lines 143-223) -/

/-- The sub-query generation prompt (template of
`SubQueryGenerator.generate_sub_queries`). -/
def subQueryPrompt (query : String) (numQueries : Nat) : String :=
  "Break down this agricultural query into " ++ Nat.repr numQueries ++
    " specific search queries.\n\nCreate focused, natural language search queries (NOT SQL) that cover different aspects:\n1. Direct problem/solution search\n2. Government policies/schemes related to the issue  \n3. Technical/scientific information about the agricultural issue\n\nMain query: " ++
    query ++ "\n\nGenerate " ++ Nat.repr numQueries ++
    " concise search queries (one per line):"

/-- The lowercased line openers the parser rejects as degenerate. -/
def degeneratePrefixes : List String := ["here are", "okay", "the following"]

/-- Python `s.lower().startswith(('here are', 'okay', 'the following'))`. -/
def startsDegenerate (s : String) : Bool :=
  degeneratePrefixes.any (fun p => pyStartsWith (pyLower s) p)

/-- A stripped line that opens with a digit, a bullet or a dash
(`line and (line[0].isdigit() or line.startswith(bullet) or ...)`). -/
def isListLine (line : String) : Bool :=
  match line.data with
  | [] => false
  | c :: _ => c.isDigit || c == '•' || c == '-'

/-- Cleanup of one numbered/bulleted line: text after the first dot when one
occurs, bullets stripped from the left, then quotes and asterisks stripped. -/
def cleanListLine (line : String) : String :=
  let c1 := if pyContains "." line then pyStrip (afterFirstDot line) else line
  let c2 := pyStrip (pyLStripSet ['•', '-'] c1)
  pyStrip (pyStripChar '*' (pyStripChar '\'' (pyStripChar '"' c2)))

/-- First parsing pass of `generate_sub_queries`: numbered/bulleted lines,
cleaned, kept when longer than 10 characters and not degenerate. -/
def primaryParse (lines : List String) : List String :=
  lines.filterMap (fun rawLine =>
    let line := pyStrip rawLine
    if isListLine line then
      let c := cleanListLine line
      if c ≠ "" ∧ 10 < pyLen c ∧ startsDegenerate c = false then some c else none
    else none)

/-- Fallback parsing pass: any stripped line longer than 15 characters that is
not degenerate, with quotes and asterisks stripped. -/
def fallbackParse (lines : List String) : List String :=
  lines.filterMap (fun rawLine =>
    let line := pyStrip rawLine
    if line ≠ "" ∧ 15 < pyLen line ∧ startsDegenerate line = false then
      some (pyStrip (pyStripChar '*' (pyStripChar '\'' (pyStripChar '"' line))))
    else none)

/-- The full parse of a 200-response body: primary pass, then the fallback
pass when it found nothing, then the single-element `[query]` fallback.
This is the parsed list before the final truncation to `num_queries`. -/
def parseSubQueries (responseText : String) (query : String) : List String :=
  let lines := pySplitLines responseText
  let primary := primaryParse lines
  let second := if primary = [] then fallbackParse lines else primary
  if second = [] then [query] else second

/-- `SubQueryGenerator.generate_sub_queries`: parses and truncates on HTTP
200; returns `[query]` on any other status or on an exception. -/
def generateSubQueries (resp : LLMOutcome) (query : String) (numQueries : Nat) :
    List String :=
  match resp with
  | .success status body =>
      if status = 200 then (parseSubQueries (pyStrip body) query).take numQueries
      else [query]
  | .exn _ => [query]

/-! ## Evidence data model (lines 48-81) -/

/-- A web search result (`SearchResult` dataclass); the float
`timestamp` field is not modelled, no verified claim mentions it. -/
structure SearchResult where
  title : String
  url : String
  snippet : String
  content : Option String
  relevance_score : ℚ
deriving DecidableEq

/-- A database chunk result (`DatabaseChunk` dataclass). -/
structure DatabaseChunk where
  chunk_text : String
  source : String
  title : String
  chunk_id : String
  source_domain : String
  similarity_score : ℚ
deriving DecidableEq

/-- The agent-enhancement info attached to a `SubQueryResult`. -/
structure AgentInfo where
  agent : String
  agent_focus : String
  agent_expertise : String
deriving DecidableEq

/-- One sub-query's result bundle (`SubQueryResult` dataclass; the unused
`markdown_content` field is dropped, and the possibly-empty `agent_info`
dict becomes an `Option`). -/
structure SubQueryResult where
  original_query : String
  sub_queries : List String
  web_results : List SearchResult
  db_results : List DatabaseChunk
  agent_info : Option AgentInfo
deriving DecidableEq

/-! ## DatabaseRetriever.retrieve_chunks (lines 358-447) -/

/-- One metadata record as normalised by `retrieve_chunks`: the
`dict`/object duality and the `link`-vs-`source` key fallback of the source
collapse into one record whose `link` field is the resolved source string;
`chunk_id` is `none` when the record has no such key (the source then uses
`str(idx)`). -/
structure ChunkMeta where
  chunk_text : String
  link : String
  title : String
  chunk_id : Option String
  source_domain : String
deriving DecidableEq

/-- The retriever's loaded state: FAISS index and metadata presence,
`index.ntotal`, and `max_safe_index` as set by `load_embeddings`. -/
structure RetrieverState where
  indexLoaded : Bool
  metadataLoaded : Bool
  metadata : List ChunkMeta
  ntotal : Nat
  maxSafeIndex : Nat
deriving DecidableEq

/-- The per-hit body of the result loop of `retrieve_chunks`: bounds checks
on the FAISS index, the empty-chunk filter, and the similarity score
`1/(1+distance)` for non-negative distances, `0` otherwise. -/
def processSearchHit (st : RetrieverState) (hit : ℚ × Int) : Option DatabaseChunk :=
  if hit.2 < 0 then none
  else if st.metadata.length ≤ hit.2.toNat then none
  else if st.maxSafeIndex < hit.2.toNat then none
  else
    match st.metadata.get? hit.2.toNat with
    | none => none
    | some cd =>
        if cd.chunk_text = "" then none
        else some
          { chunk_text := cd.chunk_text
            source := cd.link
            title := cd.title
            chunk_id := cd.chunk_id.getD (Nat.repr hit.2.toNat)
            source_domain := cd.source_domain
            similarity_score := if 0 ≤ hit.1 then 1 / (1 + hit.1) else 0 }

/-- `DatabaseRetriever.retrieve_chunks`: guards on loaded state, embeds the
query (`encode`), searches FAISS with `safe_top_k`, and maps hits through the
result loop; every failure path returns the empty list. -/
def retrieveChunks (st : RetrieverState)
    (encode : Except String Unit)
    (search : Nat → Except String (List (ℚ × Int)))
    (topK : Nat) : List DatabaseChunk :=
  if st.indexLoaded = false then []
  else if st.metadataLoaded = false then []
  else
    match encode with
    | .error _ => []
    | .ok _ =>
        match search (min (min topK st.ntotal) (st.maxSafeIndex + 1)) with
        | .error _ => []
        | .ok hits => hits.filterMap (processSearchHit st)

/-! ## AnswerSynthesizer (lines 766-899) -/

/-- The truncation note appended when content is cut for large models. -/
def truncationNote : String :=
  "\n\n[Content truncated for processing efficiency - full content available in markdown tab]"

/-- Whether the model name (lowercased) triggers the content-size guard. -/
def isBigContextModel (model : String) : Bool :=
  pyContains "27b" (pyLower model) || pyContains "70b" (pyLower model)

/-- The `optimized_content` computation of `synthesize_answer`: content over
30000 characters is truncated and annotated, but only for models whose name
contains `27b` or `70b`. -/
def optimizeContent (model content : String) : String :=
  if isBigContextModel model ∧ 30000 < pyLen content then
    pyTake content 30000 ++ truncationNote
  else content

/-- The timeout ladder of `synthesize_answer` (seconds per model-name tier). -/
def timeoutSeconds (model : String) : Nat :=
  if pyContains "70b" (pyLower model) || pyContains "72b" (pyLower model) then 900
  else if pyContains "27b" (pyLower model) || pyContains "30b" (pyLower model) then 720
  else if pyContains "13b" (pyLower model) || pyContains "14b" (pyLower model) then 480
  else if pyContains "7b" (pyLower model) || pyContains "8b" (pyLower model) then 300
  else 180

/-- The capacity tier a model name is classified into by the timeout ladder. -/
inductive CapacityTier where
  | small
  | b7
  | b13
  | b27
  | b70
deriving DecidableEq

/-- Tier selection, following the same `elif` chain as the timeout ladder. -/
def tierOf (model : String) : CapacityTier :=
  if pyContains "70b" (pyLower model) || pyContains "72b" (pyLower model) then .b70
  else if pyContains "27b" (pyLower model) || pyContains "30b" (pyLower model) then .b27
  else if pyContains "13b" (pyLower model) || pyContains "14b" (pyLower model) then .b13
  else if pyContains "7b" (pyLower model) || pyContains "8b" (pyLower model) then .b7
  else .small

/-- Timeout budget per tier. -/
def tierTimeout : CapacityTier → Nat
  | .small => 180
  | .b7 => 300
  | .b13 => 480
  | .b27 => 720
  | .b70 => 900

/-- Declared capacity (billions of parameters, lower bound) per tier. -/
def tierCapacity : CapacityTier → Nat
  | .small => 1
  | .b7 => 7
  | .b13 => 13
  | .b27 => 27
  | .b70 => 70

/-- The fixed instruction text of the synthesis prompt. -/
def synthPromptPre : String :=
  "You are an expert agricultural consultant. Based on the comprehensive research report below, provide a detailed and accurate answer to the user's question.\n\nCRITICAL INSTRUCTIONS FOR CITATIONS:\n1. You MUST include inline citations for every factual claim\n2. Use the exact citation format provided in the research report (e.g., [DB-1-2], [WEB-2-1])\n3. When citing database sources, use [DB-X-Y] format\n4. When citing web sources, use [WEB-X-Y] format\n5. Multiple citations can be combined like [DB-1-1][WEB-2-3]\n6. Every sentence with factual information should have at least one citation\n7. Do not make claims without proper citations from the provided sources\n\nAdditional Guidelines:\n- Provide a comprehensive yet focused answer\n- Structure your answer clearly with appropriate sections\n- If information is insufficient, acknowledge the limitations\n- Only use information from the provided research report\n- Include a \"References\" section at the end listing all citations used\n\nResearch Report:\n"

/-- The synthesis prompt: instructions, then the (possibly truncated)
evidence document, then the user's question. -/
def synthPrompt (model originalQuery markdownContent : String) : String :=
  synthPromptPre ++ optimizeContent model markdownContent ++
    "\n\nUser's Original Question: " ++ originalQuery ++
    "\n\nComprehensive Answer with Inline Citations:"

/-- The degraded answer returned on a synthesis timeout: tagged notice with
the first 3000 characters of the evidence document inlined. -/
def timeoutNotice (model markdownContent : String) (timeout : Nat) : String :=
  "**⏱️ Processing Timeout Notice**\n\nThe AI synthesis step timed out after " ++
    Nat.repr timeout ++
    " seconds due to the computational requirements of the large model `" ++
    model ++
    "`. However, comprehensive research has been completed.\n\n**📊 Research Summary:**\n- Database chunks retrieved and analyzed\n- Web search results gathered and processed  \n- Information synthesized into structured report\n\n**🔍 Complete Research Report:**\n\n" ++
    pyTake markdownContent 3000 ++
    "...\n\n*[Report continues in the Pipeline Info and Full Markdown tabs]*\n\n**💡 Recommendations:**\n- Switch to a smaller model (e.g., llama3.2:3b, gemma2:9b) for faster responses\n- Review the complete research in the \"Full Markdown\" tab\n- The retrieved information is comprehensive and ready for analysis\n\n**📚 Note**: All retrieved information, citations, and detailed pipeline information are available in the respective tabs above."

/-- The degraded answer returned on a non-timeout synthesis error: tagged
notice with the exception text, no evidence content. -/
def errorNotice (errMsg : String) : String :=
  "**❌ Processing Error**\n\nAn error occurred during AI synthesis: " ++ errMsg ++
    "\n\n**📋 Fallback Information Available:**\nPlease check the following tabs for complete research data:\n- **Pipeline Info**: Detailed processing steps and debug information\n- **Full Markdown**: Complete structured research report  \n- **Citations**: Source references and links\n\n**🔧 Troubleshooting:**\n- Verify that Ollama is running: `ollama serve`\n- Check if the model is available: `ollama list`\n- Try a different model if the current one is unavailable\n\nThe research and retrieval phases completed successfully - only the final synthesis step encountered issues."

/-- The source's timeout test on the exception message:
`\"Read timed out\" in str(e) or \"timeout\" in str(e).lower()`. -/
def isTimeoutError (msg : String) : Bool :=
  pyContains "Read timed out" msg || pyContains "timeout" (pyLower msg)

/-- `AnswerSynthesizer.synthesize_answer`: builds the prompt over the
optimized content, and returns the stripped completion on HTTP 200, a bare
error string on other statuses, and the tagged degraded notices on a raised
timeout or other exception. -/
def synthesizeAnswer (synthFn : String → LLMOutcome)
    (originalQuery markdownContent model : String) : String :=
  match synthFn (synthPrompt model originalQuery markdownContent) with
  | .success status body =>
      if status = 200 then pyStrip body
      else "Error generating answer: " ++ Nat.repr status
  | .exn msg =>
      if isTimeoutError msg then
        timeoutNotice model markdownContent (timeoutSeconds model)
      else errorNotice msg

/-! ## Citation extraction (`EnhancedRAGSystem._extract_citations`,
lines 1215-1242, and the citation-index loop of
`MarkdownGenerator.generate_comprehensive_markdown`, lines 733-741) -/

/-- One entry of the run's `citations` list.  Database entries carry
`('database', id, title-or-source, source, chunk preview, similarity)`;
web entries carry `('web', id, title, url, snippet preview, relevance)`;
the `source`/`url` keys merge into `locator`, the two score keys into
`score`. -/
structure Citation where
  ctype : String
  id : String
  title : String
  locator : String
  content_preview : String
  score : ℚ
deriving DecidableEq

/-- The 200-character content preview with ellipsis. -/
def preview (text : String) : String :=
  if 200 < pyLen text then pyTake text 200 ++ "..." else text

/-- The citation-ID format string `DB-{i}-{j}` / `WEB-{i}-{j}` with decimal
1-based indices, shared by `_extract_citations` and the markdown citation
index. -/
def mkCitationId (isDb : Bool) (i j : Nat) : String :=
  (if isDb then "DB-" else "WEB-") ++ Nat.repr i ++ "-" ++ Nat.repr j

/-- `mkCitationId` uncurried over (kind, sub-query index, item index). -/
def mkCitationIdT (t : Bool × Nat × Nat) : String :=
  mkCitationId t.1 t.2.1 t.2.2

/-- The citation minted for the database chunk at (0-based) sub-query
position `i`, item position `j`. -/
def dbCitation (i j : Nat) (c : DatabaseChunk) : Citation :=
  { ctype := "database"
    id := mkCitationId true (i + 1) (j + 1)
    title := if c.title = "" then c.source else c.title
    locator := c.source
    content_preview := preview c.chunk_text
    score := c.similarity_score }

/-- The citation minted for the web result at (0-based) sub-query position
`i`, item position `j`. -/
def webCitation (i j : Nat) (w : SearchResult) : Citation :=
  { ctype := "web"
    id := mkCitationId false (i + 1) (j + 1)
    title := w.title
    locator := w.url
    content_preview := preview w.snippet
    score := w.relevance_score }

/-- Python `enumerate` + map, starting the counter at `j`. -/
def enumMapFrom (f : Nat → α → β) : Nat → List α → List β
  | _, [] => []
  | j, a :: rest => f j a :: enumMapFrom f (j + 1) rest

/-- All citations of one sub-query result: database items first, then web
items, both in retrieval order. -/
def subQueryCitations (i : Nat) (r : SubQueryResult) : List Citation :=
  enumMapFrom (fun j c => dbCitation i j c) 0 r.db_results ++
    enumMapFrom (fun j w => webCitation i j w) 0 r.web_results

/-- The outer loop of `_extract_citations`, with `i` the enumeration
counter. -/
def extractCitationsFrom : Nat → List SubQueryResult → List Citation
  | _, [] => []
  | i, r :: rest => subQueryCitations i r ++ extractCitationsFrom (i + 1) rest

/-- `EnhancedRAGSystem._extract_citations`: one citation per evidence item,
in the order of the given results list. -/
def extractCitations (rs : List SubQueryResult) : List Citation :=
  extractCitationsFrom 0 rs

/-- The citation IDs minted by the citation-index loop of
`generate_comprehensive_markdown` (which enumerates from 1), one per line of
the index. -/
def markdownCitationIdsFrom : Nat → List SubQueryResult → List String
  | _, [] => []
  | i, r :: rest =>
      enumMapFrom (fun j _ => mkCitationId true i (j + 1)) 0 r.db_results ++
        enumMapFrom (fun j _ => mkCitationId false i (j + 1)) 0 r.web_results ++
        markdownCitationIdsFrom (i + 1) rest

/-- All citation IDs of the markdown citation index. -/
def markdownCitationIds (rs : List SubQueryResult) : List String :=
  markdownCitationIdsFrom 1 rs

/-- The ID triples of one sub-query block at 0-based position `i`. -/
def subIdTriples (i : Nat) (r : SubQueryResult) : List (Bool × Nat × Nat) :=
  (List.range r.db_results.length).map (fun j => (true, i + 1, j + 1)) ++
    (List.range r.web_results.length).map (fun j => (false, i + 1, j + 1))

/-- The ID triples of a results list, block by block. -/
def idTriplesFrom : Nat → List SubQueryResult → List (Bool × Nat × Nat)
  | _, [] => []
  | i, r :: rest => subIdTriples i r ++ idTriplesFrom (i + 1) rest

/-- The canonical positional citation IDs of a results list: per result in
list order, database IDs then web IDs, indexed by 1-based positions. -/
def positionalIds (rs : List SubQueryResult) : List String :=
  (idTriplesFrom 0 rs).map mkCitationIdT

/-! ## Decimal parsing, for citation-ID injectivity -/

/-- Numeric value of a decimal digit character. -/
def digitVal (c : Char) : Nat := c.toNat - 48

/-- Left fold reading a big-endian decimal digit list on top of `a`. -/
def decValAux : List Char → Nat → Nat
  | [], a => a
  | c :: cs, a => decValAux cs (a * 10 + digitVal c)

/-- Value of a big-endian decimal digit list. -/
def decVal (l : List Char) : Nat := decValAux l 0

/-! ## Pipeline orchestration (`EnhancedRAGSystem.process_query`,
lines 1038-1213, and `_process_sub_query`, lines 1244-1307)

The thread pool of step 3 submits one task per sub-query and appends each
result in `as_completed` order; the embedding makes that order an explicit
parameter `order`, the list of (0-based) task indices in completion order. -/

/-- A call to an external collaborator, recorded in the run's trace. -/
inductive CallEvent where
  | refineCall (prompt : String)
  | subqueriesCall (prompt : String)
  | dbCall (query : String) (k : Nat)
  | webCall (query : String) (k : Nat)
  | synthCall (prompt : String)
deriving DecidableEq

/-- The external collaborators, as oracles from request to outcome. -/
structure Oracles where
  refine : String → LLMOutcome
  subq : String → LLMOutcome
  dbSearch : String → Nat → Except String (List DatabaseChunk)
  webSearch : String → Nat → Except String (List SearchResult)
  synth : String → LLMOutcome

/-- The keyword arguments of `process_query`. -/
structure RunConfig where
  numSubQueries : Nat
  dbChunksPerQuery : Nat
  webResultsPerQuery : Nat
  synthesisModel : String
  enableDatabaseSearch : Bool
  enableWebSearch : Bool
deriving DecidableEq

/-- The result dict of `process_query`: either the early configuration-error
dict, or the full success dict (timing and file-path fields dropped). -/
inductive RunResult where
  | configError (error originalQuery : String)
  | done (answer originalQuery refinedQuery : String)
      (subQueries : List String)
      (subQueryResults : List SubQueryResult)
      (markdownContent : String)
      (citations : List Citation)
deriving DecidableEq

/-- `EnhancedRAGSystem._process_sub_query`: agent enhancement, then the
database and web adapter calls, each guarded by its toggle and count and
each wrapped in `try`/`except` that degrades to an empty list.  Returns the
result bundle and the adapter calls made.  `enhancedOf` is the query actually
sent to the adapters: the agent-enhanced text when the multi-agent retriever
initialised, the sub-query itself otherwise. -/
def enhancedOf (hasAgent : Bool) (s : String) : String :=
  if hasAgent then enhanceQueryWithAgent s (selectBestAgent s) else s

/-- The adapter-calling body of `_process_sub_query`. -/
def processSubQuery (o : Oracles) (hasAgent : Bool) (subQuery : String)
    (dbChunks webResults : Nat) (enableDb enableWeb : Bool) :
    SubQueryResult × List CallEvent :=
  let a := selectBestAgent subQuery
  let enhanced := enhancedOf hasAgent subQuery
  let agentInfo : Option AgentInfo :=
    if hasAgent then some ⟨a.name, a.focus, a.expertise⟩ else none
  let dbPart : List DatabaseChunk × List CallEvent :=
    if enableDb = true ∧ 0 < dbChunks then
      match o.dbSearch enhanced dbChunks with
      | .ok l => (l, [.dbCall enhanced dbChunks])
      | .error _ => ([], [.dbCall enhanced dbChunks])
    else ([], [])
  let webPart : List SearchResult × List CallEvent :=
    if enableWeb = true ∧ 0 < webResults then
      match o.webSearch enhanced webResults with
      | .ok l => (l, [.webCall enhanced webResults])
      | .error _ => ([], [.webCall enhanced webResults])
    else ([], [])
  ({ original_query := subQuery
     sub_queries := [subQuery]
     web_results := webPart.1
     db_results := dbPart.1
     agent_info := agentInfo }, dbPart.2 ++ webPart.2)

/-- Collect task results in completion order: the task list indexed by the
completion-order index list. -/
def collectInOrder (order : List Nat) (results : List α) : List α :=
  order.filterMap (fun k => results.get? k)

/-- The per-sub-query task of step 3, as submitted by `process_query`. -/
def subQueryTask (o : Oracles) (hasAgent : Bool) (cfg : RunConfig)
    (dbOn : Bool) (s : String) : SubQueryResult × List CallEvent :=
  processSubQuery o hasAgent s
    (if dbOn then cfg.dbChunksPerQuery else 0)
    (if cfg.enableWebSearch then cfg.webResultsPerQuery else 0)
    dbOn cfg.enableWebSearch

/-- `EnhancedRAGSystem.process_query`: the full pipeline.  `dbAvailable` is
the system's `db_available` flag, `hasAgent` whether the multi-agent
retriever initialised, `mdGen` the markdown report generator
(`generate_comprehensive_markdown`, kept abstract), and `order` the
completion order of the retrieval tasks.  Returns the result dict and the
trace of collaborator calls. -/
def processQuery (o : Oracles) (dbAvailable hasAgent : Bool)
    (mdGen : String → String → List String → List SubQueryResult → String)
    (userQuery : String) (cfg : RunConfig) (order : List Nat) :
    RunResult × List CallEvent :=
  if cfg.enableDatabaseSearch = false ∧ cfg.enableWebSearch = false then
    (.configError "At least one search method (database or web) must be enabled"
      userQuery, [])
  else
    let dbOn := cfg.enableDatabaseSearch && dbAvailable
    if dbOn = false ∧ cfg.enableWebSearch = false then
      (.configError "No search methods available (database failed to load and web search disabled)"
        userQuery, [])
    else
      let rPrompt := refinePrompt userQuery
      let refined := refineQuery (o.refine rPrompt) userQuery
      let sPrompt := subQueryPrompt refined cfg.numSubQueries
      let subs := generateSubQueries (o.subq sPrompt) refined cfg.numSubQueries
      let tasks := subs.map (subQueryTask o hasAgent cfg dbOn)
      let collected := collectInOrder order (tasks.map Prod.fst)
      let retrievalEvents := ((collectInOrder order tasks).map Prod.snd).flatten
      let md := mdGen userQuery refined subs collected
      let answer := synthesizeAnswer o.synth userQuery md cfg.synthesisModel
      (.done answer userQuery refined subs collected md (extractCitations collected),
        .refineCall rPrompt :: .subqueriesCall sPrompt ::
          (retrievalEvents ++ [.synthCall (synthPrompt cfg.synthesisModel userQuery md)]))

/-! ## Concrete instances used by witnesses and counterexamples -/

/-- A 30001-character evidence document, one over the truncation ceiling. -/
def bigDoc : String := ⟨List.replicate 30001 'a'⟩

/-- A set of always-failing collaborators, for concrete witnesses. -/
def trivialOracles : Oracles :=
  { refine := fun _ => .exn "refiner down"
    subq := fun _ => .exn "generator down"
    dbSearch := fun _ _ => .error "db down"
    webSearch := fun _ _ => .error "web down"
    synth := fun _ => .exn "synth down" }

/-- A one-chunk retriever state for the C10 witness. -/
def witnessState : RetrieverState :=
  ⟨true, true, [⟨"wheat chunk text", "https://agri.example/doc", "title", some "c0",
    "agri.example"⟩], 1, 0⟩

/-- A search oracle returning at most the asked-for number of hits. -/
def witnessSearch : Nat → Except String (List (ℚ × Int)) :=
  fun k => .ok (if k = 0 then [] else [((1 : ℚ) / 2, (0 : Int))])

/-- Oracles for the C1 counterexample: a fixed sub-query expansion into two
sub-queries, and a database adapter whose chunk text depends on the query it
is asked, so the two sub-queries retrieve distinguishable evidence. -/
def cexOracles : Oracles :=
  { refine := fun _ => .exn "refiner down"
    subq := fun _ => .success 200
      "1. wheat fungicide application timing details\n2. compensation for monsoon crop loss"
    dbSearch := fun qq _ => .ok [⟨"chunk about " ++ qq, "src", "t", "c", "d", 1 / 2⟩]
    webSearch := fun _ _ => .error "web down"
    synth := fun _ => .exn "Read timed out" }

/-- The citations field of the counterexample run under a given completion
order. -/
def cexRunCitations (order : List Nat) : List Citation :=
  match (processQuery cexOracles true false (fun _ _ _ _ => "md") "crops dying"
      ⟨2, 1, 1, "gemma3:1b", true, true⟩ order).1 with
  | .done _ _ _ _ _ _ cits => cits
  | .configError _ _ => []

/-- Oracles for the C3 witness: both retrieval adapters always raise. -/
def cexFailOracles : Oracles :=
  { refine := fun _ => .exn "down"
    subq := fun _ => .success 200
      "1. first generated agricultural sub-query\n2. second generated agricultural sub-query"
    dbSearch := fun _ _ => .error "FAISS search failed"
    webSearch := fun _ _ => .error "DDGS search failed"
    synth := fun _ => .exn "down" }

/-- `r` is the first maximal-score element of `cands`: everything before it
scores strictly lower and nothing in the list scores higher. -/
def IsFirstMax (ql : String) (cands : List Agent) (r : Agent) : Prop :=
  ∃ l₁ l₂, cands = l₁ ++ r :: l₂ ∧
    (∀ x ∈ l₁, agentScore ql x < agentScore ql r) ∧
    (∀ x ∈ cands, agentScore ql x ≤ agentScore ql r)

theorem pickBest_isFirstMax (ql : String) :
    ∀ (l : List Agent) (b : Agent), IsFirstMax ql (b :: l) (pickBest ql b l) := by
  intro l
  induction l with
  | nil =>
      intro b
      exact ⟨[], [], rfl, by simp, by simp [pickBest]⟩
  | cons a rest ih =>
      intro b
      by_cases h : agentScore ql b < agentScore ql a
      · have hpb : pickBest ql b (a :: rest) = pickBest ql a rest := by
          simp [pickBest, h]
        obtain ⟨l₁, l₂, hdec, hlt, hmax⟩ := ih a
        rw [hpb]
        have har : agentScore ql a ≤ agentScore ql (pickBest ql a rest) :=
          hmax a (List.mem_cons_self a rest)
        refine ⟨b :: l₁, l₂, ?_, ?_, ?_⟩
        · show b :: a :: rest = b :: l₁ ++ pickBest ql a rest :: l₂
          conv_lhs => rw [hdec]
          simp
        · intro x hx
          rcases List.mem_cons.mp hx with rfl | hx1
          · omega
          · exact hlt x hx1
        · intro x hx
          rcases List.mem_cons.mp hx with rfl | hx1
          · omega
          · exact hmax x hx1
      · have hpb : pickBest ql b (a :: rest) = pickBest ql b rest := by
          simp [pickBest, h]
        obtain ⟨l₁, l₂, hdec, hlt, hmax⟩ := ih b
        rw [hpb]
        have hab : agentScore ql a ≤ agentScore ql b := by omega
        have hbr : agentScore ql b ≤ agentScore ql (pickBest ql b rest) :=
          hmax b (List.mem_cons_self b rest)
        cases l₁ with
        | nil =>
            have hb : b = pickBest ql b rest := by
              simpa using congrArg (fun t => t.head?) hdec
            refine ⟨[], a :: rest, by simpa using hb, by simp, ?_⟩
            intro x hx
            rcases List.mem_cons.mp hx with rfl | hx1
            · exact hbr
            · rcases List.mem_cons.mp hx1 with rfl | hx2
              · omega
              · exact hmax x (List.mem_cons_of_mem b hx2)
        | cons y l₁' =>
            have hy : b = y := by
              simpa using congrArg (fun t => t.head?) hdec
            subst hy
            have hdec' : rest = l₁' ++ pickBest ql b rest :: l₂ := by
              simpa using hdec
            have hblt : agentScore ql b < agentScore ql (pickBest ql b rest) :=
              hlt b (List.mem_cons_self b l₁')
            refine ⟨b :: a :: l₁', l₂, ?_, ?_, ?_⟩
            · show b :: a :: rest = b :: a :: l₁' ++ pickBest ql b rest :: l₂
              conv_lhs => rw [hdec']
              simp
            · intro x hx
              rcases List.mem_cons.mp hx with rfl | hx1
              · exact hblt
              · rcases List.mem_cons.mp hx1 with rfl | hx2
                · omega
                · exact hlt x (List.mem_cons_of_mem b hx2)
            · intro x hx
              rcases List.mem_cons.mp hx with rfl | hx1
              · exact hbr
              · rcases List.mem_cons.mp hx1 with rfl | hx2
                · omega
                · exact hmax x (List.mem_cons_of_mem b hx2)

theorem pickBest_zero_eq_head (ql : String) (l : List Agent) (b : Agent)
    (h : agentScore ql (pickBest ql b l) = 0) : pickBest ql b l = b := by
  obtain ⟨l₁, l₂, hdec, hlt, _⟩ := pickBest_isFirstMax ql l b
  cases l₁ with
  | nil =>
      symm
      simpa using congrArg (fun t => t.head?) hdec
  | cons y l₁' =>
      have hy : b = y := by simpa using congrArg (fun t => t.head?) hdec
      subst hy
      have := hlt b (List.mem_cons_self b l₁')
      omega

theorem selectBestAgent_eq_pickBest (q : String) :
    selectBestAgent q =
      pickBest (pyLower q) cropSpecialist
        [soilExpert, pestManager, sustainabilityAdvisor] := by
  by_cases h : 0 < agentScore (pyLower q)
      (pickBest (pyLower q) cropSpecialist [soilExpert, pestManager, sustainabilityAdvisor])
  · simp [selectBestAgent, h]
  · have h0 : agentScore (pyLower q)
        (pickBest (pyLower q) cropSpecialist
          [soilExpert, pestManager, sustainabilityAdvisor]) = 0 := by omega
    simp [selectBestAgent, h, pickBest_zero_eq_head _ _ _ h0]

/-- C6: for every sub-query, the router scores each registered specialization
as 2 per focus keyword plus 1 per expertise keyword occurring as a
case-insensitive substring, selects the first maximum-scoring specialization
in registry declaration order (`IsFirstMax`), falls back to
`crop_specialist` when every score is 0, and enhances the query by appending
the winner's focus and expertise phrases.  The routing is a total Lean
function of the query alone, hence pure. -/
theorem specialization_routing (q : String) :
    selectBestAgent q ∈ agents ∧
    IsFirstMax (pyLower q) agents (selectBestAgent q) ∧
    ((∀ a ∈ agents, agentScore (pyLower q) a = 0) →
      selectBestAgent q = cropSpecialist) ∧
    enhanceQueryWithAgent q (selectBestAgent q) =
      q ++ " " ++ (selectBestAgent q).focus ++ " " ++ (selectBestAgent q).expertise := by
  have hfm : IsFirstMax (pyLower q) agents (selectBestAgent q) := by
    rw [selectBestAgent_eq_pickBest]
    exact pickBest_isFirstMax (pyLower q)
      [soilExpert, pestManager, sustainabilityAdvisor] cropSpecialist
  obtain ⟨l₁, l₂, hdec, _, _⟩ := id hfm
  have hmem : selectBestAgent q ∈ agents := by
    rw [hdec]
    exact List.mem_append_right _ (List.mem_cons_self _ _)
  refine ⟨hmem, hfm, ?_, rfl⟩
  intro hall
  rw [selectBestAgent_eq_pickBest]
  refine pickBest_zero_eq_head _ _ _ ?_
  rw [← selectBestAgent_eq_pickBest]
  exact hall _ hmem

/-- Witness for C6: a concrete routing fact derived from the theorem. -/
theorem specialization_routing_witness :
    selectBestAgent "my soil pH and nutrients are off" ∈ agents :=
  (specialization_routing "my soil pH and nutrients are off").1

theorem timeoutSeconds_eq_tier (model : String) :
    timeoutSeconds model = tierTimeout (tierOf model) := by
  unfold timeoutSeconds tierOf
  split_ifs <;> rfl

theorem tierTimeout_mono (t₁ t₂ : CapacityTier)
    (h : tierCapacity t₁ ≤ tierCapacity t₂) : tierTimeout t₁ ≤ tierTimeout t₂ := by
  revert h
  cases t₁ <;> cases t₂ <;> decide

/-- C9: the synthesis timeout is a monotone function of the declared model
capacity: whenever the capacity tier the timeout ladder assigns to `m₁`
declares no more parameters than the tier of `m₂`, the timeout budget of
`m₁` is at most that of `m₂`. -/
theorem synthesis_timeout_monotone (m₁ m₂ : String)
    (h : tierCapacity (tierOf m₁) ≤ tierCapacity (tierOf m₂)) :
    timeoutSeconds m₁ ≤ timeoutSeconds m₂ := by
  rw [timeoutSeconds_eq_tier, timeoutSeconds_eq_tier]
  exact tierTimeout_mono _ _ h

/-- Witness for C9 at two concrete model names. -/
theorem synthesis_timeout_monotone_witness :
    tierCapacity (tierOf "gemma3:1b") ≤ tierCapacity (tierOf "gemma3:27b") ∧
      timeoutSeconds "gemma3:1b" ≤ timeoutSeconds "gemma3:27b" :=
  ⟨by decide, synthesis_timeout_monotone "gemma3:1b" "gemma3:27b" (by decide)⟩

theorem pyLen_append (a b : String) : pyLen (a ++ b) = pyLen a + pyLen b := by
  have h : (a ++ b).data = a.data ++ b.data := rfl
  simp [pyLen, h]

/-- C8 counterexample: for the synthesis model `gemma3:1b` (whose name has
neither `27b` nor `70b`), a 30001-character evidence document exceeds the
30000-character ceiling yet is sent unchanged, not as a truncated prefix with
a note. -/
theorem evidence_truncation_counterexample :
    30000 < pyLen bigDoc ∧
    optimizeContent "gemma3:1b" bigDoc = bigDoc ∧
    optimizeContent "gemma3:1b" bigDoc ≠ pyTake bigDoc 30000 ++ truncationNote := by
  have hlen : pyLen bigDoc = 30001 := by
    show (List.replicate 30001 'a').length = 30001
    rw [List.length_replicate]
  have hbig : isBigContextModel "gemma3:1b" = false := by decide
  have hopt : optimizeContent "gemma3:1b" bigDoc = bigDoc := by
    unfold optimizeContent
    rw [if_neg]
    rintro ⟨hb, -⟩
    simp [hbig] at hb
  refine ⟨by omega, hopt, ?_⟩
  rw [hopt]
  intro hcontra
  have hlens := congrArg pyLen hcontra
  rw [pyLen_append] at hlens
  have h1 : pyLen (pyTake bigDoc 30000) = 30000 := by
    show ((List.replicate 30001 'a').take 30000).length = 30000
    rw [List.length_take, List.length_replicate]
    omega
  have h2 : 2 ≤ pyLen truncationNote := by decide
  omega

/-- C8 amended: the truncation guard applies only to models whose lowercased
name contains `27b` or `70b`.  For those models a document over 30000
characters is sent as its 30000-character prefix plus the truncation note;
every other document, and every document for other models, is sent
unchanged.  The last conjunct shows the content placed into the synthesis
prompt is exactly the optimized content. -/
theorem evidence_truncation_amended (model originalQuery content : String) :
    (pyLen content ≤ 30000 → optimizeContent model content = content) ∧
    (isBigContextModel model = false → optimizeContent model content = content) ∧
    (isBigContextModel model = true → 30000 < pyLen content →
      optimizeContent model content = pyTake content 30000 ++ truncationNote ∧
        (pyTake content 30000).data <+: content.data) ∧
    synthPrompt model originalQuery content =
      synthPromptPre ++ optimizeContent model content ++
        "\n\nUser's Original Question: " ++ originalQuery ++
        "\n\nComprehensive Answer with Inline Citations:" := by
  refine ⟨?_, ?_, ?_, rfl⟩
  · intro h
    unfold optimizeContent
    rw [if_neg]
    rintro ⟨-, hgt⟩
    omega
  · intro h
    unfold optimizeContent
    rw [if_neg]
    rintro ⟨hb, -⟩
    rw [h] at hb
    exact Bool.false_ne_true hb
  · intro hb hlen
    unfold optimizeContent
    rw [if_pos ⟨by simp [hb], hlen⟩]
    exact ⟨rfl, by simpa [pyTake] using List.take_prefix 30000 content.data⟩

theorem strData_append (a b : String) : (a ++ b).data = a.data ++ b.data := rfl

theorem pyStartsWith_append_of (a b tag : String)
    (h : pyStartsWith a tag = true) : pyStartsWith (a ++ b) tag = true := by
  unfold pyStartsWith at h ⊢
  rw [List.isPrefixOf_iff_prefix] at h ⊢
  rw [strData_append]
  exact h.trans (List.prefix_append _ _)

theorem ne_empty_of_pyStartsWith (s tag : String)
    (h : pyStartsWith s tag = true) (htag : tag ≠ "") : s ≠ "" := by
  intro he
  subst he
  unfold pyStartsWith at h
  cases hd : tag.data with
  | nil => exact htag (String.ext hd)
  | cons c cs =>
      rw [hd] at h
      simp [List.isPrefixOf] at h

theorem listInfixB_iff (n : List Char) : ∀ h : List Char, listInfixB n h = true ↔ n <:+: h := by
  intro h
  induction h with
  | nil => simp [listInfixB, List.isEmpty_iff]
  | cons c rest ih =>
      simp only [listInfixB, Bool.or_eq_true, List.isPrefixOf_iff_prefix, ih]
      exact (List.infix_cons_iff).symm

theorem pyContains_of_decomp (needle hay pre post : String)
    (h : hay = pre ++ needle ++ post) : pyContains needle hay = true := by
  unfold pyContains
  rw [listInfixB_iff]
  subst h
  rw [strData_append, strData_append]
  exact ⟨pre.data, post.data, by simp⟩

/-- C4: with both search modes disabled, `process_query` fails with the
configuration error before any work: the result is the error dict and the
collaborator-call trace is empty — no refinement, no sub-query generation,
no retrieval, no synthesis. -/
theorem mode_invariant_fail_fast (o : Oracles) (dbAvailable hasAgent : Bool)
    (mdGen : String → String → List String → List SubQueryResult → String)
    (userQuery : String) (cfg : RunConfig) (order : List Nat)
    (hdb : cfg.enableDatabaseSearch = false) (hweb : cfg.enableWebSearch = false) :
    processQuery o dbAvailable hasAgent mdGen userQuery cfg order =
      (.configError "At least one search method (database or web) must be enabled"
        userQuery, []) := by
  unfold processQuery
  rw [if_pos ⟨hdb, hweb⟩]

/-- Witness for C4 at a fully concrete run. -/
theorem mode_invariant_fail_fast_witness :
    processQuery trivialOracles true true (fun _ _ _ _ => "") "why are my crops dying"
        ⟨3, 3, 3, "gemma3:27b", false, false⟩ [0, 1, 2] =
      (.configError "At least one search method (database or web) must be enabled"
        "why are my crops dying", []) :=
  mode_invariant_fail_fast trivialOracles true true (fun _ _ _ _ => "")
    "why are my crops dying" ⟨3, 3, 3, "gemma3:27b", false, false⟩ [0, 1, 2] rfl rfl

theorem ite_nonempty (l : List String) (q : String) :
    (if l = [] then [q] else l) ≠ [] := by
  split_ifs with h
  · simp
  · exact h

theorem parseSubQueries_ne_nil (t q : String) : parseSubQueries t q ≠ [] := by
  unfold parseSubQueries
  exact ite_nonempty _ _

theorem list_take_ne_nil {α : Type} (n : Nat) (l : List α) (hn : 1 ≤ n) (hl : l ≠ []) :
    l.take n ≠ [] := by
  cases l with
  | nil => exact absurd rfl hl
  | cons a t =>
      cases n with
      | zero => omega
      | succ m => simp

/-- C5 counterexample: with `desired_count = 0` the claim fails both ways:
the parse-success path returns the empty list (the claim promises a
non-empty list for every `desired_count`), and the failure path returns a
one-element list, which is longer than `desired_count`. -/
theorem subquery_expansion_counterexample :
    generateSubQueries (.success 200 "1. wheat rust fungicide treatment options")
        "refined query" 0 = [] ∧
      generateSubQueries (.exn "connection error") "refined query" 0 =
        ["refined query"] := by
  exact ⟨by decide, rfl⟩

/-- C5 amended: for every `desired_count ≥ 1` the expander behaves as the
claim states: the result is non-empty, has at most `desired_count` elements,
equals the parsed list truncated (so a short parse is never padded: the
length is the minimum of `desired_count` and the number of usable parsed
items), and every failure path returns exactly `[query]`.  For
`desired_count = 0` the success path returns `[]` instead. -/
theorem subquery_expansion_amended (resp : LLMOutcome) (query : String) (n : Nat)
    (hn : 1 ≤ n) :
    generateSubQueries resp query n ≠ [] ∧
    (generateSubQueries resp query n).length ≤ n ∧
    (∀ body, resp = .success 200 body →
      generateSubQueries resp query n = (parseSubQueries (pyStrip body) query).take n ∧
      (generateSubQueries resp query n).length =
        min n (parseSubQueries (pyStrip body) query).length) ∧
    (∀ msg, resp = .exn msg → generateSubQueries resp query n = [query]) ∧
    (∀ status body, resp = .success status body → status ≠ 200 →
      generateSubQueries resp query n = [query]) := by
  cases resp with
  | exn msg =>
      have heq : generateSubQueries (.exn msg) query n = [query] := rfl
      refine ⟨by simp [heq], by rw [heq]; simpa using hn, ?_, fun _ _ => heq, ?_⟩
      · intro body hbody; cases hbody
      · intro status body h; cases h
  | success status body =>
      by_cases hs : status = 200
      · subst hs
        have heq : generateSubQueries (.success 200 body) query n =
            (parseSubQueries (pyStrip body) query).take n := by
          simp [generateSubQueries]
        refine ⟨?_, ?_, ?_, ?_, ?_⟩
        · rw [heq]
          exact list_take_ne_nil n _ hn (parseSubQueries_ne_nil _ _)
        · rw [heq, List.length_take]
          omega
        · intro body' hbody'
          cases hbody'
          exact ⟨heq, by rw [heq, List.length_take]⟩
        · intro msg h; cases h
        · intro status' body' h hne
          cases h
          exact absurd rfl hne
      · have heq : generateSubQueries (.success status body) query n = [query] := by
          simp [generateSubQueries, hs]
        refine ⟨by simp [heq], by rw [heq]; simpa using hn, ?_, ?_, ?_⟩
        · intro body' hbody'
          cases hbody'
          exact absurd rfl hs
        · intro msg h; cases h
        · intro status' body' h hne
          exact heq

/-- Witness for C5 at a concrete response and `desired_count = 3`. -/
theorem subquery_expansion_amended_witness :
    generateSubQueries (.success 200 "1. wheat rust fungicide treatment options")
        "refined query" 3 ≠ [] :=
  (subquery_expansion_amended (.success 200 "1. wheat rust fungicide treatment options")
    "refined query" 3 (by decide)).1

set_option maxRecDepth 8192 in
/-- C7 counterexample: a transport error whose message does not mention a
timeout (a refused connection) yields the tagged error notice, which does
not contain the truncated prefix of the evidence document — the claim's
"timeout or transport error" case fails for non-timeout transport errors. -/
theorem synthesis_degradation_counterexample :
    synthesizeAnswer (fun _ => .exn "Connection refused") "q" "ZXQJ77 evidence"
        "gemma3:27b" = errorNotice "Connection refused" ∧
      pyContains (pyTake "ZXQJ77 evidence" 3000)
        (synthesizeAnswer (fun _ => .exn "Connection refused") "q" "ZXQJ77 evidence"
          "gemma3:27b") = false := by
  exact ⟨rfl, by decide⟩

/-- C7 amended: when the text-completion call raises, the synthesizer always
returns a non-empty, clearly tagged degraded answer.  When the exception
message indicates a timeout, that answer is the timeout notice and contains
the truncated 3000-character prefix of the evidence document; for any other
transport error it is the tagged error notice, without the evidence
content.  Independently, whichever collaborators are plugged in, a run with
web search enabled always reaches the populated `done` result, its evidence
document intact. -/
theorem synthesis_degradation_amended (synthFn : String → LLMOutcome)
    (originalQuery markdownContent model msg : String)
    (hfail : synthFn (synthPrompt model originalQuery markdownContent) = .exn msg) :
    synthesizeAnswer synthFn originalQuery markdownContent model ≠ "" ∧
    (isTimeoutError msg = true →
      synthesizeAnswer synthFn originalQuery markdownContent model =
        timeoutNotice model markdownContent (timeoutSeconds model) ∧
      pyContains (pyTake markdownContent 3000)
        (synthesizeAnswer synthFn originalQuery markdownContent model) = true ∧
      pyStartsWith (synthesizeAnswer synthFn originalQuery markdownContent model)
        "**⏱️ Processing Timeout Notice**" = true) ∧
    (isTimeoutError msg = false →
      synthesizeAnswer synthFn originalQuery markdownContent model = errorNotice msg ∧
      pyStartsWith (synthesizeAnswer synthFn originalQuery markdownContent model)
        "**❌ Processing Error**" = true) ∧
    (∀ (o : Oracles) (dbAvailable hasAgent : Bool)
        (mdGen : String → String → List String → List SubQueryResult → String)
        (q : String) (cfg : RunConfig) (order : List Nat),
      cfg.enableWebSearch = true →
      ∃ answer refined subs collected,
        (processQuery o dbAvailable hasAgent mdGen q cfg order).1 =
          .done answer q refined subs collected (mdGen q refined subs collected)
            (extractCitations collected)) := by
  have hsyn : synthesizeAnswer synthFn originalQuery markdownContent model =
      if isTimeoutError msg then
        timeoutNotice model markdownContent (timeoutSeconds model)
      else errorNotice msg := by
    unfold synthesizeAnswer
    rw [hfail]
  have htimeoutTag : pyStartsWith
      (timeoutNotice model markdownContent (timeoutSeconds model))
      "**⏱️ Processing Timeout Notice**" = true := by
    unfold timeoutNotice
    repeat apply pyStartsWith_append_of
    decide
  have herrTag : pyStartsWith (errorNotice msg) "**❌ Processing Error**" = true := by
    unfold errorNotice
    repeat apply pyStartsWith_append_of
    decide
  refine ⟨?_, ?_, ?_, ?_⟩
  · rw [hsyn]
    split_ifs with ht
    · exact ne_empty_of_pyStartsWith _ _ htimeoutTag (by decide)
    · exact ne_empty_of_pyStartsWith _ _ herrTag (by decide)
  · intro ht
    rw [hsyn, if_pos ht]
    refine ⟨rfl, ?_, htimeoutTag⟩
    unfold timeoutNotice
    exact pyContains_of_decomp _ _
      ("**⏱️ Processing Timeout Notice**\n\nThe AI synthesis step timed out after " ++
        Nat.repr (timeoutSeconds model) ++
        " seconds due to the computational requirements of the large model `" ++
        model ++
        "`. However, comprehensive research has been completed.\n\n**📊 Research Summary:**\n- Database chunks retrieved and analyzed\n- Web search results gathered and processed  \n- Information synthesized into structured report\n\n**🔍 Complete Research Report:**\n\n")
      ("...\n\n*[Report continues in the Pipeline Info and Full Markdown tabs]*\n\n**💡 Recommendations:**\n- Switch to a smaller model (e.g., llama3.2:3b, gemma2:9b) for faster responses\n- Review the complete research in the \"Full Markdown\" tab\n- The retrieved information is comprehensive and ready for analysis\n\n**📚 Note**: All retrieved information, citations, and detailed pipeline information are available in the respective tabs above.")
      (by simp [String.append_assoc])
  · intro ht
    rw [hsyn, if_neg (by simp [ht])]
    exact ⟨rfl, herrTag⟩
  · intro o dbAvailable hasAgent mdGen q cfg order hweb
    unfold processQuery
    rw [if_neg (by rintro ⟨-, h⟩; rw [hweb] at h; simp at h)]
    rw [if_neg (by rintro ⟨-, h⟩; rw [hweb] at h; simp at h)]
    exact ⟨_, _, _, _, rfl⟩

/-- Witness for C7 at a concrete timed-out call. -/
theorem synthesis_degradation_amended_witness :
    synthesizeAnswer (fun _ => LLMOutcome.exn "Read timed out.") "q"
      "evidence document body" "gemma3:27b" ≠ "" :=
  (synthesis_degradation_amended (fun _ => LLMOutcome.exn "Read timed out.") "q"
    "evidence document body" "gemma3:27b" "Read timed out." rfl).1

theorem processSearchHit_sound (st : RetrieverState) (hit : ℚ × Int) (c : DatabaseChunk)
    (h : processSearchHit st hit = some c) :
    c.chunk_text ≠ "" ∧ 0 ≤ c.similarity_score ∧ c.similarity_score ≤ 1 := by
  unfold processSearchHit at h
  by_cases h1 : hit.2 < 0
  · rw [if_pos h1] at h
    exact nomatch h
  rw [if_neg h1] at h
  by_cases h2 : st.metadata.length ≤ hit.2.toNat
  · rw [if_pos h2] at h
    exact nomatch h
  rw [if_neg h2] at h
  by_cases h3 : st.maxSafeIndex < hit.2.toNat
  · rw [if_pos h3] at h
    exact nomatch h
  rw [if_neg h3] at h
  split at h
  · exact nomatch h
  · rename_i cd heq
    by_cases hct : cd.chunk_text = ""
    · rw [if_pos hct] at h
      exact nomatch h
    rw [if_neg hct] at h
    injection h with h
    subst h
    refine ⟨hct, ?_, ?_⟩
    · show (0 : ℚ) ≤ if 0 ≤ hit.1 then 1 / (1 + hit.1) else 0
      split_ifs with hd
      · have hpos : (0 : ℚ) < 1 + hit.1 := by linarith
        positivity
      · exact le_refl 0
    · show (if 0 ≤ hit.1 then 1 / (1 + hit.1) else 0 : ℚ) ≤ 1
      split_ifs with hd
      · have hpos : (0 : ℚ) < 1 + hit.1 := by linarith
        rw [div_le_one hpos]
        linarith
      · norm_num

/-- C10: `retrieve_chunks` returns at most `top_k` chunks (given the FAISS
collaborator contract that a search for `k` items yields at most `k` hits),
every returned chunk has non-empty text and a similarity score in `[0, 1]`
(`1/(1+distance)` for non-negative distances, `0` otherwise), and every
internal failure path — index or metadata not loaded, embedding failure,
search failure — returns the empty list instead of raising. -/
theorem retrieve_chunks_invariant (st : RetrieverState)
    (encode : Except String Unit) (search : Nat → Except String (List (ℚ × Int)))
    (topK : Nat)
    (hsearch : ∀ k hits, search k = .ok hits → hits.length ≤ k) :
    (retrieveChunks st encode search topK).length ≤ topK ∧
    (∀ c ∈ retrieveChunks st encode search topK,
      c.chunk_text ≠ "" ∧ 0 ≤ c.similarity_score ∧ c.similarity_score ≤ 1) ∧
    (st.indexLoaded = false → retrieveChunks st encode search topK = []) ∧
    (st.metadataLoaded = false → retrieveChunks st encode search topK = []) ∧
    (∀ e, encode = .error e → retrieveChunks st encode search topK = []) ∧
    (∀ e, search (min (min topK st.ntotal) (st.maxSafeIndex + 1)) = .error e →
      retrieveChunks st encode search topK = []) := by
  by_cases hIdx : st.indexLoaded = false
  · have hres : retrieveChunks st encode search topK = [] := by
      unfold retrieveChunks
      rw [if_pos hIdx]
    rw [hres]
    exact ⟨by simp, by simp, fun _ => rfl, fun _ => rfl, fun _ _ => rfl, fun _ _ => rfl⟩
  · by_cases hMeta : st.metadataLoaded = false
    · have hres : retrieveChunks st encode search topK = [] := by
        unfold retrieveChunks
        rw [if_neg hIdx, if_pos hMeta]
      rw [hres]
      exact ⟨by simp, by simp, fun _ => rfl, fun _ => rfl, fun _ _ => rfl, fun _ _ => rfl⟩
    · cases encode with
      | error e =>
          have hres : retrieveChunks st (.error e) search topK = [] := by
            unfold retrieveChunks
            rw [if_neg hIdx, if_neg hMeta]
          rw [hres]
          exact ⟨by simp, by simp, fun _ => rfl, fun _ => rfl,
            fun _ _ => rfl, fun _ _ => rfl⟩
      | ok u =>
          cases hS : search (min (min topK st.ntotal) (st.maxSafeIndex + 1)) with
          | error e =>
              have hres : retrieveChunks st (.ok u) search topK = [] := by
                unfold retrieveChunks
                rw [if_neg hIdx, if_neg hMeta]
                show (match search (min (min topK st.ntotal) (st.maxSafeIndex + 1)) with
                  | Except.error _ => []
                  | Except.ok hits => hits.filterMap (processSearchHit st)) = []
                rw [hS]
              rw [hres]
              exact ⟨by simp, by simp, fun _ => rfl, fun _ => rfl,
                fun _ _ => rfl, fun _ _ => rfl⟩
          | ok hits =>
              have hres : retrieveChunks st (.ok u) search topK =
                  hits.filterMap (processSearchHit st) := by
                unfold retrieveChunks
                rw [if_neg hIdx, if_neg hMeta]
                show (match search (min (min topK st.ntotal) (st.maxSafeIndex + 1)) with
                  | Except.error _ => []
                  | Except.ok hits => hits.filterMap (processSearchHit st)) =
                  hits.filterMap (processSearchHit st)
                rw [hS]
              rw [hres]
              refine ⟨?_, ?_, fun h => absurd h hIdx, fun h => absurd h hMeta, ?_, ?_⟩
              · calc (hits.filterMap (processSearchHit st)).length
                    ≤ hits.length := List.length_filterMap_le _ _
                  _ ≤ min (min topK st.ntotal) (st.maxSafeIndex + 1) := hsearch _ _ hS
                  _ ≤ topK := le_trans (min_le_left _ _) (min_le_left _ _)
              · intro c hc
                obtain ⟨hit, -, hsome⟩ := List.mem_filterMap.mp hc
                exact processSearchHit_sound st hit c hsome
              · intro e' he
                exact nomatch he
              · intro e' he
                exact nomatch he

/-- Witness for C10 at a concrete one-hit search. -/
theorem retrieve_chunks_invariant_witness :
    (retrieveChunks witnessState (.ok ()) witnessSearch 5).length ≤ 5 :=
  (retrieve_chunks_invariant witnessState (.ok ()) witnessSearch 5 (by
    intro k hits h
    cases k with
    | zero =>
        simp only [witnessSearch, if_pos rfl, Except.ok.injEq] at h
        simp [← h]
    | succ m =>
        simp only [witnessSearch, Nat.succ_ne_zero, if_neg (Nat.succ_ne_zero m),
          Except.ok.injEq] at h
        simp [← h])).1

theorem toDigitsCore_shift (f : Nat) : ∀ (n : Nat) (l : List Char),
    Nat.toDigitsCore 10 f n l = Nat.toDigitsCore 10 f n [] ++ l := by
  induction f with
  | zero =>
      intro n l
      simp [Nat.toDigitsCore]
  | succ f ih =>
      intro n l
      simp only [Nat.toDigitsCore]
      by_cases h : n / 10 = 0
      · simp [h]
      · simp only [h, if_false]
        rw [ih (n / 10) (Nat.digitChar (n % 10) :: l), ih (n / 10) [Nat.digitChar (n % 10)]]
        simp

theorem toDigitsCore_fuel (f : Nat) : ∀ (g n : Nat) (l : List Char),
    n < f → n < g → Nat.toDigitsCore 10 f n l = Nat.toDigitsCore 10 g n l := by
  induction f with
  | zero =>
      intro g n l h
      omega
  | succ f ih =>
      intro g n l hf hg
      cases g with
      | zero => omega
      | succ g =>
          simp only [Nat.toDigitsCore]
          by_cases h : n / 10 = 0
          · simp [h]
          · simp only [h, if_false]
            have hn : 0 < n := by
              rcases Nat.eq_zero_or_pos n with rfl | hp
              · simp at h
              · exact hp
            have hlt : n / 10 < n := Nat.div_lt_self hn (by norm_num)
            exact ih g (n / 10) _ (by omega) (by omega)

theorem toDigits_base (n : Nat) (h : n < 10) :
    Nat.toDigits 10 n = [Nat.digitChar n] := by
  unfold Nat.toDigits
  simp only [Nat.toDigitsCore]
  rw [if_pos (Nat.div_eq_of_lt h), Nat.mod_eq_of_lt h]

theorem toDigits_step (n : Nat) (h : 10 ≤ n) :
    Nat.toDigits 10 n = Nat.toDigits 10 (n / 10) ++ [Nat.digitChar (n % 10)] := by
  have hdiv : n / 10 ≠ 0 := by
    have : 1 ≤ n / 10 := (Nat.one_le_div_iff (by norm_num)).mpr h
    omega
  have h1 : Nat.toDigits 10 n =
      Nat.toDigitsCore 10 n (n / 10) [Nat.digitChar (n % 10)] := by
    unfold Nat.toDigits
    simp only [Nat.toDigitsCore]
    rw [if_neg hdiv]
  rw [h1, toDigitsCore_shift]
  congr 1
  show Nat.toDigitsCore 10 n (n / 10) [] = Nat.toDigitsCore 10 (n / 10 + 1) (n / 10) []
  apply toDigitsCore_fuel
  · have : n / 10 < n := Nat.div_lt_self (by omega) (by norm_num)
    omega
  · omega

theorem digitChar_isDigit (m : Nat) (h : m < 10) : (Nat.digitChar m).isDigit = true := by
  interval_cases m <;> decide

theorem digitVal_digitChar (m : Nat) (h : m < 10) : digitVal (Nat.digitChar m) = m := by
  interval_cases m <;> decide

theorem toDigits_mem_isDigit (n : Nat) : ∀ c ∈ Nat.toDigits 10 n, c.isDigit = true := by
  induction n using Nat.strong_induction_on with
  | _ n ih =>
      by_cases h : n < 10
      · rw [toDigits_base n h]
        intro c hc
        simp at hc
        subst hc
        exact digitChar_isDigit n h
      · rw [toDigits_step n (by omega)]
        intro c hc
        rcases List.mem_append.mp hc with hc1 | hc2
        · exact ih (n / 10) (Nat.div_lt_self (by omega) (by norm_num)) c hc1
        · simp at hc2
          subst hc2
          exact digitChar_isDigit _ (Nat.mod_lt _ (by norm_num))

theorem dash_not_mem_toDigits (n : Nat) : '-' ∉ Nat.toDigits 10 n := by
  intro hmem
  have := toDigits_mem_isDigit n '-' hmem
  exact absurd this (by decide)

theorem decValAux_append (l₁ l₂ : List Char) :
    ∀ a, decValAux (l₁ ++ l₂) a = decValAux l₂ (decValAux l₁ a) := by
  induction l₁ with
  | nil => intro a; rfl
  | cons c cs ih =>
      intro a
      simp [decValAux, ih]

theorem decVal_toDigits (n : Nat) : decVal (Nat.toDigits 10 n) = n := by
  induction n using Nat.strong_induction_on with
  | _ n ih =>
      by_cases h : n < 10
      · rw [toDigits_base n h]
        show decValAux [Nat.digitChar n] 0 = n
        simp [decValAux, digitVal_digitChar n h]
      · rw [toDigits_step n (by omega)]
        show decValAux _ 0 = n
        rw [decValAux_append]
        have hrec : decValAux (Nat.toDigits 10 (n / 10)) 0 = n / 10 :=
          ih (n / 10) (Nat.div_lt_self (by omega) (by norm_num))
        simp [decValAux, hrec, digitVal_digitChar _ (Nat.mod_lt n (by norm_num))]
        omega

theorem natRepr_data (n : Nat) : (Nat.repr n).data = Nat.toDigits 10 n := rfl

theorem toDigits_injective (a b : Nat) (h : Nat.toDigits 10 a = Nat.toDigits 10 b) :
    a = b := by
  have := congrArg decVal h
  rwa [decVal_toDigits, decVal_toDigits] at this

theorem sep_split {α : Type} (sep : α) :
    ∀ (a₁ b₁ a₂ b₂ : List α), a₁ ++ sep :: b₁ = a₂ ++ sep :: b₂ →
      sep ∉ a₁ → sep ∉ a₂ → a₁ = a₂ ∧ b₁ = b₂ := by
  intro a₁
  induction a₁ with
  | nil =>
      intro b₁ a₂ b₂ heq h1 h2
      cases a₂ with
      | nil => simpa using heq
      | cons x xs =>
          simp only [List.nil_append, List.cons_append, List.cons.injEq] at heq
          obtain ⟨hx, -⟩ := heq
          subst hx
          exact absurd (List.mem_cons_self _ _) h2
  | cons x xs ih =>
      intro b₁ a₂ b₂ heq h1 h2
      cases a₂ with
      | nil =>
          simp only [List.nil_append, List.cons_append, List.cons.injEq] at heq
          obtain ⟨hx, -⟩ := heq
          subst hx
          exact absurd (List.mem_cons_self _ _) h1
      | cons y ys =>
          simp only [List.cons_append, List.cons.injEq] at heq
          obtain ⟨rfl, heq'⟩ := heq
          obtain ⟨h3, h4⟩ := ih b₁ ys b₂ heq'
            (fun hm => h1 (List.mem_cons_of_mem _ hm))
            (fun hm => h2 (List.mem_cons_of_mem _ hm))
          exact ⟨by rw [h3], h4⟩

theorem mkCitationId_data (b : Bool) (i j : Nat) :
    (mkCitationId b i j).data =
      (if b then "DB-" else "WEB-").data ++
        (Nat.toDigits 10 i ++ '-' :: Nat.toDigits 10 j) := by
  show ((((if b then "DB-" else "WEB-") ++ Nat.repr i) ++ "-") ++ Nat.repr j).data = _
  rw [strData_append, strData_append, strData_append, natRepr_data, natRepr_data]
  have hd : ("-" : String).data = ['-'] := rfl
  rw [hd]
  simp [List.append_assoc]

theorem mkCitationIdT_injective : Function.Injective mkCitationIdT := by
  rintro ⟨b₁, i₁, j₁⟩ ⟨b₂, i₂, j₂⟩ h
  have hdata := congrArg String.data h
  unfold mkCitationIdT at hdata
  rw [mkCitationId_data, mkCitationId_data] at hdata
  have hDB : ("DB-" : String).data = ['D', 'B', '-'] := rfl
  have hWEB : ("WEB-" : String).data = ['W', 'E', 'B', '-'] := rfl
  suffices hsuf : b₁ = b₂ ∧ i₁ = i₂ ∧ j₁ = j₂ by
    obtain ⟨hb, hi, hj⟩ := hsuf
    simp [hb, hi, hj]
  cases b₁ <;> cases b₂
  · have hrest := List.append_cancel_left hdata
    obtain ⟨hi, hj⟩ := sep_split '-' _ _ _ _ hrest
      (dash_not_mem_toDigits i₁) (dash_not_mem_toDigits i₂)
    exact ⟨rfl, toDigits_injective _ _ hi, toDigits_injective _ _ hj⟩
  · simp [hDB, hWEB] at hdata
  · simp [hDB, hWEB] at hdata
  · have hrest := List.append_cancel_left hdata
    obtain ⟨hi, hj⟩ := sep_split '-' _ _ _ _ hrest
      (dash_not_mem_toDigits i₁) (dash_not_mem_toDigits i₂)
    exact ⟨rfl, toDigits_injective _ _ hi, toDigits_injective _ _ hj⟩

theorem enumMapFrom_length {α β : Type} (f : Nat → α → β) :
    ∀ (j : Nat) (l : List α), (enumMapFrom f j l).length = l.length := by
  intro j l
  induction l generalizing j with
  | nil => rfl
  | cons a t ih => simp [enumMapFrom, ih]

theorem enumMapFrom_map_const {α β γ : Type} (f : Nat → α → β) (g : β → γ) (h : Nat → γ)
    (hfg : ∀ k a, g (f k a) = h k) :
    ∀ (j : Nat) (l : List α),
      (enumMapFrom f j l).map g = (List.range l.length).map (fun t => h (j + t)) := by
  intro j l
  induction l generalizing j with
  | nil => rfl
  | cons a tl ih =>
      show g (f j a) :: (enumMapFrom f (j + 1) tl).map g = _
      rw [hfg j a, ih (j + 1), List.length_cons, List.range_succ_eq_map, List.map_cons,
        List.map_map]
      refine congrArg₂ List.cons (by rw [Nat.add_zero]) ?_
      apply List.map_congr_left
      intro t _
      show h (j + 1 + t) = h (j + (t + 1))
      congr 1
      omega

theorem subQueryCitations_ids (i : Nat) (r : SubQueryResult) :
    (subQueryCitations i r).map Citation.id = (subIdTriples i r).map mkCitationIdT := by
  unfold subQueryCitations subIdTriples
  rw [List.map_append, List.map_append]
  congr 1
  · rw [enumMapFrom_map_const (fun k c => dbCitation i k c) Citation.id
      (fun k => mkCitationId true (i + 1) (k + 1)) (fun _ _ => rfl) 0 r.db_results,
      List.map_map]
    apply List.map_congr_left
    intro t _
    show mkCitationId true (i + 1) (0 + t + 1) = mkCitationIdT (true, i + 1, t + 1)
    rw [Nat.zero_add]
    rfl
  · rw [enumMapFrom_map_const (fun k w => webCitation i k w) Citation.id
      (fun k => mkCitationId false (i + 1) (k + 1)) (fun _ _ => rfl) 0 r.web_results,
      List.map_map]
    apply List.map_congr_left
    intro t _
    show mkCitationId false (i + 1) (0 + t + 1) = mkCitationIdT (false, i + 1, t + 1)
    rw [Nat.zero_add]
    rfl

theorem extractCitationsFrom_ids : ∀ (i : Nat) (rs : List SubQueryResult),
    (extractCitationsFrom i rs).map Citation.id = (idTriplesFrom i rs).map mkCitationIdT := by
  intro i rs
  induction rs generalizing i with
  | nil => rfl
  | cons r rest ih =>
      show (subQueryCitations i r ++ extractCitationsFrom (i + 1) rest).map Citation.id =
        (subIdTriples i r ++ idTriplesFrom (i + 1) rest).map mkCitationIdT
      rw [List.map_append, List.map_append, subQueryCitations_ids, ih (i + 1)]

theorem subIdTriples_snd (i : Nat) (r : SubQueryResult) :
    ∀ t ∈ subIdTriples i r, t.2.1 = i + 1 := by
  intro t ht
  unfold subIdTriples at ht
  rcases List.mem_append.mp ht with h | h <;>
    (obtain ⟨j, -, rfl⟩ := List.mem_map.mp h; rfl)

theorem idTriplesFrom_snd_le : ∀ (i : Nat) (rs : List SubQueryResult)
    (t : Bool × Nat × Nat), t ∈ idTriplesFrom i rs → i + 1 ≤ t.2.1 := by
  intro i rs
  induction rs generalizing i with
  | nil =>
      intro t ht
      cases ht
  | cons r rest ih =>
      intro t ht
      rcases List.mem_append.mp ht with h | h
      · rw [subIdTriples_snd i r t h]
      · have := ih (i + 1) t h
        omega

theorem subIdTriples_nodup (i : Nat) (r : SubQueryResult) : (subIdTriples i r).Nodup := by
  unfold subIdTriples
  refine List.Nodup.append ?_ ?_ ?_
  · refine List.Nodup.map ?_ (List.nodup_range _)
    intro a b hab
    simpa using hab
  · refine List.Nodup.map ?_ (List.nodup_range _)
    intro a b hab
    simpa using hab
  · intro t ht1 ht2
    obtain ⟨a, -, rfl⟩ := List.mem_map.mp ht1
    obtain ⟨b, -, hb⟩ := List.mem_map.mp ht2
    simp at hb

theorem idTriplesFrom_nodup : ∀ (i : Nat) (rs : List SubQueryResult),
    (idTriplesFrom i rs).Nodup := by
  intro i rs
  induction rs generalizing i with
  | nil => exact List.nodup_nil
  | cons r rest ih =>
      refine List.Nodup.append (subIdTriples_nodup i r) (ih (i + 1)) ?_
      intro t ht1 ht2
      have h1 := subIdTriples_snd i r t ht1
      have h2 := idTriplesFrom_snd_le (i + 1) rest t ht2
      omega

theorem extractCitationsFrom_length : ∀ (i : Nat) (rs : List SubQueryResult),
    (extractCitationsFrom i rs).length =
      (rs.map (fun r => r.db_results.length + r.web_results.length)).sum := by
  intro i rs
  induction rs generalizing i with
  | nil => rfl
  | cons r rest ih =>
      show (subQueryCitations i r ++ extractCitationsFrom (i + 1) rest).length = _
      rw [List.length_append]
      unfold subQueryCitations
      rw [List.length_append, enumMapFrom_length, enumMapFrom_length, ih (i + 1)]
      simp

theorem enumMapFrom_const {α β : Type} (h : Nat → β) (j : Nat) (l : List α) :
    enumMapFrom (fun k _ => h k) j l = (List.range l.length).map (fun t => h (j + t)) := by
  have := enumMapFrom_map_const (fun k (_ : α) => h k) id h (fun _ _ => rfl) j l
  simpa using this

theorem markdownCitationIdsFrom_eq : ∀ (i : Nat) (rs : List SubQueryResult),
    markdownCitationIdsFrom (i + 1) rs = (idTriplesFrom i rs).map mkCitationIdT := by
  intro i rs
  induction rs generalizing i with
  | nil => rfl
  | cons r rest ih =>
      show enumMapFrom (fun j _ => mkCitationId true (i + 1) (j + 1)) 0 r.db_results ++
            enumMapFrom (fun j _ => mkCitationId false (i + 1) (j + 1)) 0 r.web_results ++
          markdownCitationIdsFrom (i + 1 + 1) rest =
        (subIdTriples i r ++ idTriplesFrom (i + 1) rest).map mkCitationIdT
      rw [List.map_append, ih (i + 1)]
      congr 1
      unfold subIdTriples
      rw [List.map_append]
      congr 1
      · rw [enumMapFrom_const (fun k => mkCitationId true (i + 1) (k + 1)) 0 r.db_results,
          List.map_map]
        apply List.map_congr_left
        intro t _
        show mkCitationId true (i + 1) (0 + t + 1) = mkCitationIdT (true, i + 1, t + 1)
        rw [Nat.zero_add]
        rfl
      · rw [enumMapFrom_const (fun k => mkCitationId false (i + 1) (k + 1)) 0 r.web_results,
          List.map_map]
        apply List.map_congr_left
        intro t _
        show mkCitationId false (i + 1) (0 + t + 1) = mkCitationIdT (false, i + 1, t + 1)
        rw [Nat.zero_add]
        rfl

/-- C2: the citation assignment of a run is injective and total over the
retrieved evidence: the citations list mints exactly one ID per database
chunk and web result (its length is the total evidence count), the IDs are
exactly the positional `DB-i-j` / `WEB-i-j` strings with 1-based indices in
which, within each sub-query, all database IDs precede all web IDs
(`positionalIds`), all IDs in the run are pairwise distinct, and the
markdown citation index mints the same IDs in the same order. -/
theorem citation_assignment (rs : List SubQueryResult) :
    (extractCitations rs).map Citation.id = positionalIds rs ∧
    (extractCitations rs).length =
      (rs.map (fun r => r.db_results.length + r.web_results.length)).sum ∧
    ((extractCitations rs).map Citation.id).Nodup ∧
    markdownCitationIds rs = (extractCitations rs).map Citation.id := by
  have hids : (extractCitations rs).map Citation.id =
      (idTriplesFrom 0 rs).map mkCitationIdT := extractCitationsFrom_ids 0 rs
  refine ⟨hids, extractCitationsFrom_length 0 rs, ?_, ?_⟩
  · rw [hids]
    exact List.Nodup.map mkCitationIdT_injective (idTriplesFrom_nodup 0 rs)
  · rw [hids]
    exact markdownCitationIdsFrom_eq 0 rs

/-- C1 amended: `process_query` appends sub-query results in completion
order and performs no re-sort before minting citation IDs: the run's
citations are the extraction over `collectInOrder order tasks`, and the IDs
are the positional IDs of that completion-ordered list.  Citation IDs are
deterministic given the completion order, but they are a function of that
order, not of the canonical sub-query order (see the counterexample). -/
theorem citation_completion_order (o : Oracles) (dbAvailable hasAgent : Bool)
    (mdGen : String → String → List String → List SubQueryResult → String)
    (q : String) (cfg : RunConfig) (order : List Nat)
    (hweb : cfg.enableWebSearch = true) :
    ∃ answer refined subs collected,
      (processQuery o dbAvailable hasAgent mdGen q cfg order).1 =
        .done answer q refined subs collected (mdGen q refined subs collected)
          (extractCitations collected) ∧
      collected = collectInOrder order
        ((subs.map (subQueryTask o hasAgent cfg
          (cfg.enableDatabaseSearch && dbAvailable))).map Prod.fst) ∧
      (extractCitations collected).map Citation.id = positionalIds collected := by
  unfold processQuery
  rw [if_neg (by rintro ⟨-, h⟩; rw [hweb] at h; simp at h)]
  rw [if_neg (by rintro ⟨-, h⟩; rw [hweb] at h; simp at h)]
  exact ⟨_, _, _, _, rfl, rfl, extractCitationsFrom_ids 0 _⟩

/-- Witness for C1's amended theorem at a concrete run. -/
theorem citation_completion_order_witness :
    ∃ answer refined subs collected,
      (processQuery trivialOracles true false (fun _ _ _ _ => "md") "q"
          ⟨2, 1, 1, "m", true, true⟩ [1, 0]).1 =
        RunResult.done answer "q" refined subs collected "md" (extractCitations collected) ∧
      collected = collectInOrder [1, 0]
        ((subs.map (subQueryTask trivialOracles false ⟨2, 1, 1, "m", true, true⟩
          (true && true))).map Prod.fst) ∧
      (extractCitations collected).map Citation.id = positionalIds collected :=
  citation_completion_order trivialOracles true false (fun _ _ _ _ => "md") "q"
    ⟨2, 1, 1, "m", true, true⟩ [1, 0] rfl

set_option maxRecDepth 8192 in
/-- C1 counterexample: the same oracles (hence the same sub-query list and
the same per-sub-query retrieved evidence) run with two different task
completion orders mint the same ID strings but attach them to different
evidence items, so two executions differing only in completion order do not
produce identical citation IDs for every evidence item. -/
theorem citation_determinism_counterexample :
    cexRunCitations [0, 1] ≠ cexRunCitations [1, 0] ∧
      (cexRunCitations [0, 1]).map Citation.id =
        (cexRunCitations [1, 0]).map Citation.id := by
  exact ⟨by decide, by decide⟩

theorem processSubQuery_db_failure (o : Oracles) (hasAgent : Bool) (s : String)
    (k kw : Nat) (eDb eW : Bool) (e : String)
    (hfail : o.dbSearch (enhancedOf hasAgent s) k = .error e) :
    (processSubQuery o hasAgent s k kw eDb eW).1.db_results = [] := by
  simp only [processSubQuery]
  split_ifs with h
  · rw [hfail]
  · rfl

theorem processSubQuery_web_failure (o : Oracles) (hasAgent : Bool) (s : String)
    (k kw : Nat) (eDb eW : Bool) (e : String)
    (hfail : o.webSearch (enhancedOf hasAgent s) kw = .error e) :
    (processSubQuery o hasAgent s k kw eDb eW).1.web_results = [] := by
  simp only [processSubQuery]
  split_ifs with h
  · rw [hfail]
  · rfl

theorem collectInOrder_mem {α : Type} (order : List Nat) (results : List α) (i : Nat)
    (hi : i ∈ order) (h : i < results.length) :
    results.get ⟨i, h⟩ ∈ collectInOrder order results := by
  unfold collectInOrder
  apply List.mem_filterMap.mpr
  exact ⟨i, hi, by rw [List.get?_eq_get h]⟩

/-- C3: an exception inside either retrieval adapter call — database or
web — is absorbed at the adapter boundary: the sub-query's evidence from the
failing source degrades to the empty list, each source's result depends only
on its own adapter call (so the same task's other source and every sibling
task are unaffected), and for every configuration that passes the pre-flight
guard the run still completes: every generated sub-query whose task index
was collected contributes a result bundle to the run's results, with empty
evidence from whichever of its adapters raised. -/
theorem partial_failure_isolation (o : Oracles) (dbAvailable hasAgent : Bool)
    (mdGen : String → String → List String → List SubQueryResult → String)
    (q : String) (cfg : RunConfig) (order : List Nat) (s : String)
    (hon : cfg.enableWebSearch = true ∨
      (cfg.enableDatabaseSearch = true ∧ dbAvailable = true)) :
    (∀ k kw eDb eW e, o.dbSearch (enhancedOf hasAgent s) k = .error e →
      (processSubQuery o hasAgent s k kw eDb eW).1.db_results = []) ∧
    (∀ k kw eDb eW e, o.webSearch (enhancedOf hasAgent s) kw = .error e →
      (processSubQuery o hasAgent s k kw eDb eW).1.web_results = []) ∧
    (∀ (o' : Oracles) k kw eDb eW, o'.webSearch = o.webSearch →
      (processSubQuery o' hasAgent s k kw eDb eW).1.web_results =
        (processSubQuery o hasAgent s k kw eDb eW).1.web_results) ∧
    (∀ (o' : Oracles) k kw eDb eW, o'.dbSearch = o.dbSearch →
      (processSubQuery o' hasAgent s k kw eDb eW).1.db_results =
        (processSubQuery o hasAgent s k kw eDb eW).1.db_results) ∧
    (∃ answer refined subs collected,
      (processQuery o dbAvailable hasAgent mdGen q cfg order).1 =
        .done answer q refined subs collected (mdGen q refined subs collected)
          (extractCitations collected) ∧
      (∀ i (hi : i < subs.length), i ∈ order →
        (subQueryTask o hasAgent cfg (cfg.enableDatabaseSearch && dbAvailable)
            (subs.get ⟨i, hi⟩)).1 ∈ collected ∧
        (∀ e, (∀ k', o.dbSearch (enhancedOf hasAgent (subs.get ⟨i, hi⟩)) k' = .error e) →
          (subQueryTask o hasAgent cfg (cfg.enableDatabaseSearch && dbAvailable)
            (subs.get ⟨i, hi⟩)).1.db_results = []) ∧
        (∀ e, (∀ k', o.webSearch (enhancedOf hasAgent (subs.get ⟨i, hi⟩)) k' = .error e) →
          (subQueryTask o hasAgent cfg (cfg.enableDatabaseSearch && dbAvailable)
            (subs.get ⟨i, hi⟩)).1.web_results = []))) := by
  refine ⟨?_, ?_, ?_, ?_, ?_⟩
  · intro k kw eDb eW e hf
    exact processSubQuery_db_failure o hasAgent s k kw eDb eW e hf
  · intro k kw eDb eW e hf
    exact processSubQuery_web_failure o hasAgent s k kw eDb eW e hf
  · intro o' k kw eDb eW hw
    simp only [processSubQuery]
    rw [hw]
  · intro o' k kw eDb eW hd
    simp only [processSubQuery]
    rw [hd]
  · unfold processQuery
    rw [if_neg (by
      rintro ⟨h1, h2⟩
      rcases hon with hw | ⟨hdb, -⟩
      · rw [hw] at h2
        simp at h2
      · rw [hdb] at h1
        simp at h1)]
    rw [if_neg (by
      rintro ⟨h1, h2⟩
      rcases hon with hw | ⟨hdb, hav⟩
      · rw [hw] at h2
        simp at h2
      · rw [hdb, hav] at h1
        simp at h1)]
    refine ⟨_, _, _, _, rfl, ?_⟩
    intro i hi hio
    refine ⟨?_, ?_, ?_⟩
    · have h1 : i < (((generateSubQueries
          (o.subq (subQueryPrompt (refineQuery (o.refine (refinePrompt q)) q)
            cfg.numSubQueries))
          (refineQuery (o.refine (refinePrompt q)) q) cfg.numSubQueries).map
            (subQueryTask o hasAgent cfg (cfg.enableDatabaseSearch && dbAvailable))).map
            Prod.fst).length := by
        simpa using hi
      have hmem := collectInOrder_mem order _ i hio h1
      have hget : (((generateSubQueries
          (o.subq (subQueryPrompt (refineQuery (o.refine (refinePrompt q)) q)
            cfg.numSubQueries))
          (refineQuery (o.refine (refinePrompt q)) q) cfg.numSubQueries).map
            (subQueryTask o hasAgent cfg (cfg.enableDatabaseSearch && dbAvailable))).map
            Prod.fst).get ⟨i, h1⟩ =
          (subQueryTask o hasAgent cfg (cfg.enableDatabaseSearch && dbAvailable)
            ((generateSubQueries
              (o.subq (subQueryPrompt (refineQuery (o.refine (refinePrompt q)) q)
                cfg.numSubQueries))
              (refineQuery (o.refine (refinePrompt q)) q) cfg.numSubQueries).get
              ⟨i, hi⟩)).1 := by
        simp [List.get_eq_getElem, List.getElem_map]
      rwa [hget] at hmem
    · intro e hf
      unfold subQueryTask
      exact processSubQuery_db_failure o hasAgent _ _ _ _ _ e (hf _)
    · intro e hf
      unfold subQueryTask
      exact processSubQuery_web_failure o hasAgent _ _ _ _ _ e (hf _)

/-- Witness for C3 at concrete failing adapters: both the database and the
web adapter raise, and both sources degrade to the empty list. -/
theorem partial_failure_isolation_witness :
    (processSubQuery cexFailOracles false "first generated agricultural sub-query"
        3 3 true true).1.db_results = [] ∧
      (processSubQuery cexFailOracles false "first generated agricultural sub-query"
        3 3 true true).1.web_results = [] :=
  ⟨(partial_failure_isolation cexFailOracles true false (fun _ _ _ _ => "") "q"
      ⟨2, 3, 3, "m", true, true⟩ [0, 1] "first generated agricultural sub-query"
      (Or.inl rfl)).1 3 3 true true "FAISS search failed" rfl,
    (partial_failure_isolation cexFailOracles true false (fun _ _ _ _ => "") "q"
      ⟨2, 3, 3, "m", true, true⟩ [0, 1] "first generated agricultural sub-query"
      (Or.inl rfl)).2.1 3 3 true true "DDGS search failed" rfl⟩

end AgriRag
